import Mathlib

/-!
Shallow embedding of the typeorm-scheduler package: the `Cronjob` entity and
the `Scheduler` class (`checkNextAndLock`, `getNextStart`, `rescheduleSleep`,
`tick`, `stop`), together with a contract model of the external cron engine.
Timestamps are modelled as `Nat`: the code stores them as `moment(...).format('X')`
unix-second strings of equal width, whose lexicographic order agrees with
numeric order.
-/

namespace TypeormScheduler

/-- A row of the job table (the `Cronjob` entity): an `id`, a nullable
`sleepUntil` timestamp, a nullable cron `interval` expression, a nullable
`repeatUntil` bound and an `autoRemove` flag. -/
structure Job where
  id : Nat
  sleepUntil : Option Nat
  interval : Option String
  repeatUntil : Option Nat
  autoRemove : Bool
deriving DecidableEq, Repr

/-- The scheduler configuration after the constructor has spread its defaults
(`nextDelay` 0, `idleDelay` 10000, `lockDuration` 600000, the four field paths,
a default `onNewJob` and `onError`). The embedding binds the field paths to the
entity's fields; `intervalFieldPath = ""` models a falsy configured path. The
`hasOnIdle`/`hasOnNewJob`/`hasOnStop` flags record whether the corresponding
hook is configured (a hook overridden with an explicit undefined is absent). -/
structure SchedulerConfig where
  nextDelay : Nat := 0
  idleDelay : Nat := 10000
  lockDuration : Nat := 600000
  intervalFieldPath : String := "interval"
  hasOnNewJob : Bool := true
  hasOnIdle : Bool := false
  hasOnStop : Bool := false
deriving Repr

/-- Modelled from the spec: the external CronExpressionEngine (the `cron-parser`
package, which is not under src/). `next expr after bound` yields the next
occurrence after `after`, or `none` when the call raises: on a malformed
expression, or when no occurrence exists before `bound`. With no bound an
accepted expression always yields an occurrence (cron fields are periodic). -/
structure CronEngine where
  accepts : String → Bool
  next : String → Nat → Option Nat → Option Nat
  malformed_raises : ∀ e a b, accepts e = false → next e a b = none
  unbounded_total : ∀ e a, accepts e = true → (next e a none).isSome = true

/-- The effective row filter of `checkNextAndLock`'s `findOne`. The source
builds the where-object with the same computed key twice (`Not(null)`, then
`LessThan(currentDate)`); a JS object literal keeps only the last entry, so the
effective condition is `sleepUntil < currentDate` — and a SQL comparison on a
NULL column is never satisfied, so NULL rows are excluded either way. -/
def dueFilter (currentDate : Nat) (j : Job) : Bool :=
  match j.sleepUntil with
  | none => false
  | some s => decide (s < currentDate)

/-- `entityManager.update(entity, id, { sleepUntil: lockValue })`: update by
primary key, leaving the found in-memory object untouched. -/
def lockRow (lockValue : Nat) (id : Nat) (store : List Job) : List Job :=
  store.map fun r => if r.id = id then { r with sleepUntil := some lockValue } else r

/-- `checkNextAndLock`: inside one transaction, find one row whose `sleepUntil`
is before now, write `sleepUntil = now + lockDuration` to that row, and return
the found (pre-update) object; with no such row, return the store unchanged and
no job. -/
def checkNextAndLock (cfg : SchedulerConfig) (now : Nat) (store : List Job) :
    List Job × Option Job :=
  let lockValue := now + cfg.lockDuration
  match store.find? (dueFilter now) with
  | none => (store, none)
  | some origJob => (lockRow lockValue origJob.id store, some origJob)

/-- `getNextStart`: null when the configured interval field path is falsy;
otherwise parse the job's interval with `currentDate` equal to the job's
(pre-lock) `sleepUntil` and `endDate` equal to the job's `repeatUntil`, take
the next occurrence, and clamp an occurrence lying in the past up to now. Any
raise from the engine (malformed or unset interval, no occurrence before
`repeatUntil`) is caught and yields null. A null `sleepUntil` hands the parser
an invalid `currentDate`, modelled as a raise; the scheduler only reaches this
function with claimed rows, whose snapshot is non-null. -/
def getNextStart (cfg : SchedulerConfig) (eng : CronEngine) (now : Nat)
    (job : Job) : Option Nat :=
  if cfg.intervalFieldPath = "" then none
  else
    match job.sleepUntil with
    | none => none
    | some available =>
      match job.interval with
      | none => none
      | some e =>
        match eng.next e available job.repeatUntil with
        | none => none
        | some nxt => some (if nxt < now then now else nxt)

/-- Whether the engine call inside `getNextStart`'s try-block raises for this
job: `parseExpression(undefined)` raises when the job's interval is unset, and
otherwise the call raises exactly when the engine yields no occurrence. -/
def engineRaises (eng : CronEngine) (job : Job) (available : Nat) : Bool :=
  match job.interval with
  | none => true
  | some e => (eng.next e available job.repeatUntil).isNone

/-- The three store writes `rescheduleSleep` can issue. -/
inductive StoreEffect where
  | deleteRow (id : Nat)
  | setSleep (id : Nat) (v : Option Nat)
deriving DecidableEq, Repr

/-- `rescheduleSleep`: with `nextStart` null and the job auto-removable, delete
the row by id; with `nextStart` null otherwise, set `sleepUntil` to null by id;
with `nextStart` present, set `sleepUntil` to it by id. -/
def rescheduleSleep (cfg : SchedulerConfig) (eng : CronEngine) (now : Nat)
    (job : Job) : StoreEffect :=
  match getNextStart cfg eng now job with
  | none =>
    if job.autoRemove then .deleteRow job.id else .setSleep job.id none
  | some v => .setSleep job.id (some v)

/-- The scheduler's three state flags. -/
structure SchedState where
  running : Bool
  processing : Bool
  idle : Bool
deriving DecidableEq, Repr

/-- The environment of one `tick`: whether `stop()` flipped `running` to false
during the `nextDelay` sleep, the outcome of `checkNextAndLock` (the error case
models a store/transaction failure), and whether each awaited hook raises. -/
structure TickEnv where
  stopDuringDelay : Bool
  claim : Except String (Option Job)
  newJobErr : Option String
  rescheduleErr : Option String
  onIdleErr : Option String

/-- The observable outcome of one `tick`: the state after it, the argument
delivered to `onError` (if any), whether `onIdle` was invoked, the job handed
to `onNewJob` (if any), the job that reached `rescheduleSleep` without an
error, and whether the next tick was scheduled. -/
structure TickOut where
  state : SchedState
  onErrorArg : Option String
  onIdleInvoked : Bool
  onNewJobArg : Option Job
  rescheduledJob : Option Job
  nextTickScheduled : Bool
deriving DecidableEq, Repr

/-- One `tick`: abort (without rescheduling) when not running, before or after
the `nextDelay` sleep; otherwise set `processing`, claim, and either take the
idle branch (clear `processing`, on the idle edge set `idle` and invoke
`onIdle`) or the job branch (clear `idle`, invoke `onNewJob`, reschedule, clear
`processing`). Any raise inside the try-block is caught and handed to
`onError`, after which the next tick is still scheduled. -/
def tick (cfg : SchedulerConfig) (env : TickEnv) (s : SchedState) : TickOut :=
  if s.running = false then
    ⟨s, none, false, none, none, false⟩
  else if env.stopDuringDelay then
    ⟨{ s with running := false }, none, false, none, none, false⟩
  else
    let s1 : SchedState := { s with processing := true }
    match env.claim with
    | .error e => ⟨s1, some e, false, none, none, true⟩
    | .ok none =>
      let s2 : SchedState := { s1 with processing := false }
      if s.idle then
        ⟨s2, none, false, none, none, true⟩
      else
        let s3 : SchedState := { s2 with idle := true }
        if cfg.hasOnIdle then
          match env.onIdleErr with
          | some e => ⟨s3, some e, true, none, none, true⟩
          | none => ⟨s3, none, true, none, none, true⟩
        else ⟨s3, none, false, none, none, true⟩
    | .ok (some job) =>
      let s2 : SchedState := { s1 with idle := false }
      let cbArg : Option Job := if cfg.hasOnNewJob then some job else none
      match (if cfg.hasOnNewJob then env.newJobErr else none) with
      | some e => ⟨s2, some e, false, cbArg, none, true⟩
      | none =>
        match env.rescheduleErr with
        | some e => ⟨s2, some e, false, cbArg, none, true⟩
        | none => ⟨{ s2 with processing := false }, none, false, cbArg, some job, true⟩

/-- `stop()`'s polling drain, driven by the successive values it reads from the
`processing` flag: each observation of `true` is one 300 ms sleep followed by a
retried `stop()`; the first observation of `false` completes the drain. Returns
the number of 300 ms waits and whether the drain completed within the given
observations. -/
def stopDrain : List Bool → Nat × Bool
  | [] => (0, false)
  | p :: rest =>
    if p then ((stopDrain rest).1 + 1, (stopDrain rest).2)
    else (0, true)

/-- One full `stop()` call: `running` is set to false at entry (and again on
every retry), the drain polls the `processing` flag as in `stopDrain`, and
`onStop` (when configured) is invoked exactly when the drain completes.
Returns the state afterwards, the number of 300 ms waits, and the number of
`onStop` invocations this call performs. -/
def stopRun (cfg : SchedulerConfig) (obs : List Bool) (s : SchedState) :
    SchedState × Nat × Nat :=
  ({ s with running := false }, (stopDrain obs).1,
    if (stopDrain obs).2 && cfg.hasOnStop then 1 else 0)

/-- Acceptance predicate of the concrete sample engine below. -/
def everySecondAccepts (e : String) : Bool := e = "* * * * * *"

/-- Next-occurrence function of the concrete sample engine below: the
six-field expression the tests use fires every second. -/
def everySecondNext (e : String) (a : Nat) (b : Option Nat) : Option Nat :=
  if e = "* * * * * *" then
    match b with
    | none => some (a + 1)
    | some bb => if a + 1 ≤ bb then some (a + 1) else none
  else none

/-- A concrete engine instance satisfying the contract, used to instantiate
theorems at concrete inputs. -/
def everySecondEngine : CronEngine :=
  ⟨everySecondAccepts, everySecondNext,
    by
      intro e a b h
      unfold everySecondAccepts at h
      unfold everySecondNext
      simp only [decide_eq_false_iff_not] at h
      simp [h],
    by
      intro e a h
      unfold everySecondAccepts at h
      unfold everySecondNext
      simp only [decide_eq_true_eq] at h
      simp [h]⟩

/-- A due one-shot row, as the tests insert it. -/
def sampleDueJob : Job := ⟨1, some 5, none, none, false⟩

/-- A due recurring row with no `repeatUntil`, as the interval test inserts it. -/
def sampleRecurringJob : Job := ⟨1, some 5, some "* * * * * *", none, false⟩

/-- A due auto-removable one-shot row. -/
def sampleAutoRemoveJob : Job := ⟨1, some 5, none, none, true⟩

/-- A tick environment whose claim raises a store error. -/
def sampleClaimErrorEnv : TickEnv := ⟨false, .error "store failure", none, none, none⟩

/-- A tick environment that finds no job, with no hook raising. -/
def sampleIdleEnv : TickEnv := ⟨false, .ok none, none, none, none⟩

/-- A tick environment that finds the sample due job, with no hook raising. -/
def sampleJobEnv : TickEnv := ⟨false, .ok (some sampleDueJob), none, none, none⟩

theorem dueFilter_eq_true (now : Nat) (j : Job) (h : dueFilter now j = true) :
    ∃ s, j.sleepUntil = some s ∧ s < now := by
  unfold dueFilter at h
  cases hs : j.sleepUntil with
  | none => rw [hs] at h; simp at h
  | some s =>
    rw [hs] at h
    simp only [decide_eq_true_eq] at h
    exact ⟨s, rfl, h⟩

theorem checkNextAndLock_found (cfg : SchedulerConfig) (now : Nat)
    (store : List Job) (j : Job)
    (h : (checkNextAndLock cfg now store).2 = some j) :
    store.find? (dueFilter now) = some j ∧
      (checkNextAndLock cfg now store).1 =
        lockRow (now + cfg.lockDuration) j.id store := by
  unfold checkNextAndLock at h ⊢
  cases hfind : store.find? (dueFilter now) with
  | none => rw [hfind] at h; simp at h
  | some o =>
    rw [hfind] at h
    simp only [Option.some.injEq] at h
    subst h
    exact ⟨rfl, rfl⟩

/-- C1: any row returned by `checkNextAndLock` has a non-null `sleepUntil` that
is at most the current time (the code even requires strictly less than now),
so both conditions hold of the selected row simultaneously and a job whose due
timestamp lies in the future is never returned. -/
theorem C1_claimed_job_is_due (cfg : SchedulerConfig) (now : Nat)
    (store : List Job) (j : Job)
    (h : (checkNextAndLock cfg now store).2 = some j) :
    ∃ s, j.sleepUntil = some s ∧ s ≤ now := by
  have hfind := (checkNextAndLock_found cfg now store j h).1
  obtain ⟨s, hs, hlt⟩ := dueFilter_eq_true now j (List.find?_some hfind)
  exact ⟨s, hs, Nat.le_of_lt hlt⟩

theorem C1_witness :
    ∃ s, sampleDueJob.sleepUntil = some s ∧ s ≤ 10 :=
  C1_claimed_job_is_due {} 10 [sampleDueJob] sampleDueJob (by decide)

/-- C2: when `checkNextAndLock` finds a job it writes `sleepUntil = now +
lockDuration` to that row inside the same transaction (every row of the
updated store carrying the claimed id holds the lock value, and such a row
exists), while the returned object is the pre-lock snapshot: an unmodified
member of the original store whose `sleepUntil` still holds the original due
time, which is never the temporary lock value. -/
theorem C2_prelock_snapshot (cfg : SchedulerConfig) (now : Nat)
    (store : List Job) (j : Job)
    (h : (checkNextAndLock cfg now store).2 = some j) :
    j ∈ store ∧
      (∀ r ∈ (checkNextAndLock cfg now store).1, r.id = j.id →
        r.sleepUntil = some (now + cfg.lockDuration)) ∧
      (∃ r ∈ (checkNextAndLock cfg now store).1, r.id = j.id) ∧
      j.sleepUntil ≠ some (now + cfg.lockDuration) := by
  obtain ⟨hfind, hstore⟩ := checkNextAndLock_found cfg now store j h
  have hmem := List.mem_of_find?_eq_some hfind
  obtain ⟨s, hs, hlt⟩ := dueFilter_eq_true now j (List.find?_some hfind)
  refine ⟨hmem, ?_, ?_, ?_⟩
  · intro r hr hid
    rw [hstore] at hr
    unfold lockRow at hr
    obtain ⟨r0, hr0mem, hr0⟩ := List.mem_map.mp hr
    by_cases hc : r0.id = j.id
    · rw [if_pos hc] at hr0
      rw [← hr0]
    · rw [if_neg hc] at hr0
      rw [← hr0] at hid
      exact absurd hid hc
  · refine ⟨{ j with sleepUntil := some (now + cfg.lockDuration) }, ?_, rfl⟩
    rw [hstore]
    unfold lockRow
    exact List.mem_map.mpr ⟨j, hmem, by rw [if_pos rfl]⟩
  · rw [hs]
    intro hcontra
    have hsval : s = now + cfg.lockDuration := by
      exact Option.some.inj hcontra
    omega

theorem C2_witness :
    sampleDueJob.sleepUntil ≠
      some (10 + ({} : SchedulerConfig).lockDuration) :=
  (C2_prelock_snapshot {} 10 [sampleDueJob] sampleDueJob (by decide)).2.2.2

/-- C3: for every job, `rescheduleSleep` issues exactly one of three store
effects, decided by `getNextStart`: when it is null and the job is
auto-removable, the row is deleted by id; when it is null otherwise, the row's
`sleepUntil` is set to null; when it is present, `sleepUntil` is set to it. -/
theorem C3_reschedule_trichotomy (cfg : SchedulerConfig) (eng : CronEngine)
    (now : Nat) (job : Job) :
    (getNextStart cfg eng now job = none → job.autoRemove = true →
      rescheduleSleep cfg eng now job = .deleteRow job.id) ∧
    (getNextStart cfg eng now job = none → job.autoRemove = false →
      rescheduleSleep cfg eng now job = .setSleep job.id none) ∧
    (∀ v, getNextStart cfg eng now job = some v →
      rescheduleSleep cfg eng now job = .setSleep job.id (some v)) := by
  refine ⟨?_, ?_, ?_⟩
  · intro h ha
    unfold rescheduleSleep
    rw [h, ha]
    simp
  · intro h ha
    unfold rescheduleSleep
    rw [h, ha]
    simp
  · intro v hv
    unfold rescheduleSleep
    rw [hv]

theorem C3_witness :
    rescheduleSleep {} everySecondEngine 10 sampleRecurringJob =
      .setSleep 1 (some 10) :=
  (C3_reschedule_trichotomy {} everySecondEngine 10 sampleRecurringJob).2.2
    10 (by decide)

/-- C4: a recurring job whose cron expression the engine accepts and which has
no `repeatUntil` bound is always re-armed by processing: `getNextStart` yields
a non-null occurrence and `rescheduleSleep` sets the row's `sleepUntil` to
that non-null value — it never sets it to null and never deletes the row. -/
theorem C4_recurring_always_rearmed (cfg : SchedulerConfig) (eng : CronEngine)
    (now : Nat) (job : Job) (e : String)
    (hpath : cfg.intervalFieldPath ≠ "")
    (hsleep : job.sleepUntil.isSome = true)
    (hint : job.interval = some e)
    (hacc : eng.accepts e = true)
    (hru : job.repeatUntil = none) :
    ∃ v, getNextStart cfg eng now job = some v ∧
      rescheduleSleep cfg eng now job = .setSleep job.id (some v) := by
  obtain ⟨available, hs⟩ := Option.isSome_iff_exists.mp hsleep
  have htot := eng.unbounded_total e available hacc
  rw [← hru] at htot
  obtain ⟨nxt, hnxt⟩ := Option.isSome_iff_exists.mp htot
  have hg : getNextStart cfg eng now job =
      some (if nxt < now then now else nxt) := by
    simp only [getNextStart, if_neg hpath, hs, hint, hnxt]
  refine ⟨if nxt < now then now else nxt, hg, ?_⟩
  unfold rescheduleSleep
  rw [hg]

theorem C4_witness :
    ∃ v, getNextStart {} everySecondEngine 10 sampleRecurringJob = some v ∧
      rescheduleSleep {} everySecondEngine 10 sampleRecurringJob =
        .setSleep sampleRecurringJob.id (some v) :=
  C4_recurring_always_rearmed {} everySecondEngine 10 sampleRecurringJob
    "* * * * * *" (by decide) (by decide) rfl (by decide) rfl

/-- C5: the catch-up clamp — every non-null result of `getNextStart` is at
least the current time, and whenever the engine's candidate occurrence lies in
the past relative to now, `getNextStart` returns now itself instead. -/
theorem C5_catchup_clamp (cfg : SchedulerConfig) (eng : CronEngine) (now : Nat)
    (job : Job) :
    (∀ v, getNextStart cfg eng now job = some v → now ≤ v) ∧
    (∀ e available nxt, cfg.intervalFieldPath ≠ "" →
      job.sleepUntil = some available → job.interval = some e →
      eng.next e available job.repeatUntil = some nxt → nxt < now →
      getNextStart cfg eng now job = some now) := by
  constructor
  · intro v hv
    unfold getNextStart at hv
    by_cases hpath : cfg.intervalFieldPath = ""
    · rw [if_pos hpath] at hv
      exact absurd hv (by simp)
    · rw [if_neg hpath] at hv
      cases hs : job.sleepUntil with
      | none => simp only [hs] at hv; exact absurd hv (by simp)
      | some available =>
        simp only [hs] at hv
        cases hi : job.interval with
        | none => simp only [hi] at hv; exact absurd hv (by simp)
        | some e =>
          simp only [hi] at hv
          cases hn : eng.next e available job.repeatUntil with
          | none => simp only [hn] at hv; exact absurd hv (by simp)
          | some nxt =>
            simp only [hn, Option.some.injEq] at hv
            subst hv
            by_cases hlt : nxt < now
            · rw [if_pos hlt]
            · rw [if_neg hlt]; omega
  · intro e available nxt hpath hs hi hn hlt
    simp only [getNextStart, if_neg hpath, hs, hi, hn, if_pos hlt]

theorem C5_witness :
    getNextStart {} everySecondEngine 10 sampleRecurringJob = some 10 :=
  (C5_catchup_clamp {} everySecondEngine 10 sampleRecurringJob).2
    "* * * * * *" 5 6 (by decide) rfl rfl (by decide) (by decide)

/-- C6: with the interval field path configured and a claimed row (non-null
pre-lock `sleepUntil`), `getNextStart` returns null in exactly the
non-recurring and expiry cases — the job's interval is unset, or the engine
call raises (malformed expression, or no occurrence before `repeatUntil`) —
and the null is produced by a normal return from the catch block: the embedded
function is total, no error reaches the caller. -/
theorem C6_nextstart_none_iff (cfg : SchedulerConfig) (eng : CronEngine)
    (now : Nat) (job : Job) (available : Nat)
    (hpath : cfg.intervalFieldPath ≠ "")
    (hs : job.sleepUntil = some available) :
    getNextStart cfg eng now job = none ↔
      (job.interval = none ∨ engineRaises eng job available = true) := by
  unfold getNextStart engineRaises
  rw [if_neg hpath, hs]
  cases hi : job.interval with
  | none => simp
  | some e =>
    cases hn : eng.next e available job.repeatUntil with
    | none => simp [hn]
    | some nxt => simp [hn]

theorem C6_witness :
    getNextStart {} everySecondEngine 10 sampleDueJob = none ↔
      (sampleDueJob.interval = none ∨
        engineRaises everySecondEngine sampleDueJob 5 = true) :=
  C6_nextstart_none_iff {} everySecondEngine 10 sampleDueJob 5 (by decide) rfl

theorem tick_not_running (cfg : SchedulerConfig) (env : TickEnv)
    (s : SchedState) (h : s.running = false) :
    tick cfg env s = ⟨s, none, false, none, none, false⟩ := by
  unfold tick
  rw [h]
  simp

/-- C7: on a running tick that was not stopped during the `nextDelay` sleep,
the next tick is scheduled unconditionally, and any error raised by the claim,
by the `onNewJob` callback, or by `rescheduleSleep` is caught within the tick
and delivered to `onError` — no such error terminates the loop. -/
theorem C7_errors_caught_loop_continues (cfg : SchedulerConfig) (env : TickEnv)
    (s : SchedState) (hrun : s.running = true)
    (hstop : env.stopDuringDelay = false) :
    (tick cfg env s).nextTickScheduled = true ∧
    (∀ e, env.claim = .error e → (tick cfg env s).onErrorArg = some e) ∧
    (∀ e j, env.claim = .ok (some j) →
      (if cfg.hasOnNewJob then env.newJobErr else none) = some e →
      (tick cfg env s).onErrorArg = some e) ∧
    (∀ e j, env.claim = .ok (some j) →
      (if cfg.hasOnNewJob then env.newJobErr else none) = none →
      env.rescheduleErr = some e → (tick cfg env s).onErrorArg = some e) := by
  unfold tick
  rw [hrun, hstop]
  simp only [Bool.true_eq_false, if_false, Bool.false_eq_true]
  refine ⟨?_, ?_, ?_, ?_⟩
  · cases hc : env.claim with
    | error e => rfl
    | ok o =>
      cases o with
      | none =>
        by_cases hi : s.idle
        · simp [hi]
        · by_cases ho : cfg.hasOnIdle
          · cases env.onIdleErr <;> simp [hi, ho]
          · simp [hi, ho]
      | some j =>
        cases hcb : (if cfg.hasOnNewJob then env.newJobErr else none) with
        | some e => simp [hcb]
        | none => cases env.rescheduleErr <;> simp [hcb]
  · intro e hc
    rw [hc]
  · intro e j hc hcb
    rw [hc]
    simp only [hcb]
  · intro e j hc hcb hre
    rw [hc]
    simp only [hcb, hre]

theorem C7_witness :
    (tick {} sampleClaimErrorEnv ⟨true, false, false⟩).onErrorArg =
      some "store failure" :=
  (C7_errors_caught_loop_continues {} sampleClaimErrorEnv ⟨true, false, false⟩
    rfl rfl).2.1 "store failure" rfl

/-- C8: the idle edge — on a running tick whose claim finds no job and with
`onIdle` configured, `onIdle` is invoked exactly when the `idle` flag was
false, and the flag is set afterwards; a tick that finds a job clears `idle`
and never invokes `onIdle`; the `idle` flag is only cleared by a tick that
finds a job; and a tick that starts already idle never re-invokes `onIdle`. -/
theorem C8_idle_edge (cfg : SchedulerConfig) (env : TickEnv) (s : SchedState)
    (hrun : s.running = true) (hstop : env.stopDuringDelay = false) :
    (env.claim = .ok none → cfg.hasOnIdle = true →
      ((tick cfg env s).onIdleInvoked = !s.idle ∧
        (tick cfg env s).state.idle = true)) ∧
    (∀ j, env.claim = .ok (some j) →
      ((tick cfg env s).state.idle = false ∧
        (tick cfg env s).onIdleInvoked = false)) ∧
    (s.idle = true → (tick cfg env s).state.idle = false →
      ∃ j, env.claim = .ok (some j)) ∧
    (s.idle = true → (tick cfg env s).onIdleInvoked = false) := by
  unfold tick
  rw [hrun, hstop]
  simp only [Bool.true_eq_false, if_false, Bool.false_eq_true]
  refine ⟨?_, ?_, ?_, ?_⟩
  · intro hc ho
    rw [hc]
    by_cases hi : s.idle
    · simp [hi, ho]
    · cases env.onIdleErr <;> simp [hi, ho]
  · intro j hc
    rw [hc]
    cases hcb : (if cfg.hasOnNewJob then env.newJobErr else none) with
    | some e => simp [hcb]
    | none => cases env.rescheduleErr <;> simp [hcb]
  · intro hi hcleared
    cases hc : env.claim with
    | error e => rw [hc] at hcleared; simp [hi] at hcleared
    | ok o =>
      cases o with
      | none =>
        rw [hc] at hcleared
        simp only [hi, if_true] at hcleared
        simp [hi] at hcleared
      | some j => exact ⟨j, rfl⟩
  · intro hi
    cases env.claim with
    | error e => rfl
    | ok o =>
      cases o with
      | none => simp [hi]
      | some j =>
        cases hcb : (if cfg.hasOnNewJob then env.newJobErr else none) with
        | some e => simp [hcb]
        | none => cases env.rescheduleErr <;> simp [hcb]

theorem C8_witness :
    (tick { hasOnIdle := true } sampleIdleEnv ⟨true, false, false⟩).onIdleInvoked =
        !false ∧
      (tick { hasOnIdle := true } sampleIdleEnv ⟨true, false, false⟩).state.idle =
        true :=
  (C8_idle_edge { hasOnIdle := true } sampleIdleEnv ⟨true, false, false⟩
    rfl rfl).1 rfl rfl

theorem stopDrain_replicate_true (n : Nat) :
    stopDrain (List.replicate n true) = (n, false) := by
  induction n with
  | zero => rfl
  | succ k ih => simp [List.replicate_succ, stopDrain, ih]

theorem stopDrain_completes (k : Nat) :
    stopDrain (List.replicate k true ++ [false]) = (k, true) := by
  induction k with
  | zero => rfl
  | succ k ih => simp [List.replicate_succ, stopDrain, ih]

/-- C9 counterexample: on an already stopped, non-processing scheduler a
further `stop()` call invokes `onStop` once more — one additional observable
hook invocation, so a repeated `stop()` is not free of observable effects. -/
theorem C9_counterexample :
    (stopRun { hasOnStop := true } [false] ⟨false, false, false⟩).2.2 = 1 ∧
      (1 : Nat) ≠ 0 := by
  decide

/-- C9 (amended): `stop()` sets `running` to false; each observation of
`processing = true` costs one 300 ms wait before the retried call; `onStop` is
invoked exactly when an observation of `processing = false` completes the
drain (and never while only `true` is observed); repeated `stop()` is
idempotent on the scheduler's flags — but every completed call invokes
`onStop` once more, so a second `stop()` on an already stopped scheduler
re-fires `onStop` rather than having no observable effect. -/
theorem C9_stop_drain_amended (cfg : SchedulerConfig) (s : SchedState)
    (k : Nat) (hstop : cfg.hasOnStop = true) :
    ((stopRun cfg (List.replicate k true ++ [false]) s).1.running = false ∧
      (stopRun cfg (List.replicate k true ++ [false]) s).2.1 = k ∧
      (stopRun cfg (List.replicate k true ++ [false]) s).2.2 = 1) ∧
    (∀ n, (stopRun cfg (List.replicate n true) s).2.2 = 0) ∧
    ((stopRun cfg [false] { s with running := false }).1 =
        { s with running := false } ∧
      (stopRun cfg [false] { s with running := false }).2.2 = 1) := by
  refine ⟨⟨rfl, ?_, ?_⟩, ?_, ?_, ?_⟩
  · simp [stopRun, stopDrain_completes]
  · simp [stopRun, stopDrain_completes, hstop]
  · intro n
    simp [stopRun, stopDrain_replicate_true]
  · rfl
  · simp [stopRun, stopDrain, hstop]

theorem C9_witness :
    (stopRun { hasOnStop := true } (List.replicate 2 true ++ [false])
        ⟨true, false, false⟩).2.1 = 2 :=
  (C9_stop_drain_amended { hasOnStop := true } ⟨true, false, false⟩ 2
    rfl).1.2.1

/-- C10: an error raised by the claim, the callback, or rescheduling is
delivered to `onError` but leaves `processing = true` at the end of the tick;
once `running` is false, every tick returns with the state untouched, so
nothing ever resets `processing`; and `stop()`'s drain over a `processing`
flag that stays true never completes and never invokes `onStop`, however many
times it retries. -/
theorem C10_error_leaves_processing_stuck (cfg : SchedulerConfig)
    (env : TickEnv) (s : SchedState) (hrun : s.running = true)
    (hstop : env.stopDuringDelay = false) :
    (((∃ e, env.claim = .error e) ∨
      (∃ e j, env.claim = .ok (some j) ∧
        (if cfg.hasOnNewJob then env.newJobErr else none) = some e) ∨
      (∃ e j, env.claim = .ok (some j) ∧
        (if cfg.hasOnNewJob then env.newJobErr else none) = none ∧
        env.rescheduleErr = some e)) →
      ((tick cfg env s).state.processing = true ∧
        (tick cfg env s).onErrorArg ≠ none)) ∧
    (∀ env2 s2, s2.running = false →
      tick cfg env2 s2 = ⟨s2, none, false, none, none, false⟩) ∧
    (∀ n, (stopDrain (List.replicate n true)).2 = false ∧
      (stopRun cfg (List.replicate n true) s).2.2 = 0) := by
  refine ⟨?_, ?_, ?_⟩
  · intro hcase
    unfold tick
    rw [hrun, hstop]
    simp only [Bool.true_eq_false, if_false, Bool.false_eq_true]
    rcases hcase with ⟨e, hc⟩ | ⟨e, j, hc, hcb⟩ | ⟨e, j, hc, hcb, hre⟩
    · rw [hc]
      exact ⟨rfl, by simp⟩
    · rw [hc]
      simp only [hcb]
      exact ⟨by simp, by simp⟩
    · rw [hc]
      simp only [hcb, hre]
      exact ⟨by simp, by simp⟩
  · intro env2 s2 h2
    exact tick_not_running cfg env2 s2 h2
  · intro n
    refine ⟨?_, ?_⟩
    · simp [stopDrain_replicate_true]
    · simp [stopRun, stopDrain_replicate_true]

theorem C10_witness :
    (tick {} sampleClaimErrorEnv ⟨true, false, false⟩).state.processing =
      true :=
  ((C10_error_leaves_processing_stuck {} sampleClaimErrorEnv
      ⟨true, false, false⟩ rfl rfl).1 (Or.inl ⟨"store failure", rfl⟩)).1

end TypeormScheduler
